import Mathlib

/-!
Verification of the keyset-handle core (src/cc/core/keyset_handle.cc) against
its specification.  The proto schema (google::crypto::tink), the AEAD, the
keyset reader/writer and the registry are external collaborators; they are
modelled as parameters (records of functions), while every function defined
below is a direct translation of the corresponding C++ function in the source
file.  Side effects on external collaborators (calls to the AEAD and to the
writer) are made observable through explicit call traces, and the handle state
after a call is threaded explicitly where a claim is about mutation.
-/

namespace Tink

/-- Byte strings (std::string used as bytes in the source). -/
abbrev Bytes := List Nat

/-- Error codes of util::Status (only the codes the source mentions, plus
catch-all codes for collaborator failures). -/
inductive ErrorCode where
  | ok
  | invalidArgument
  | notFound
  | unknownCode
deriving DecidableEq, Repr

/-- util::Status: an error code plus a message. -/
structure Status where
  code : ErrorCode
  message : String
deriving DecidableEq, Repr

/-- util::StatusOr. -/
abbrev StatusOr (α : Type) := Except Status α

/-- KeyData::KeyMaterialType from the proto schema. -/
inductive KeyMaterialType where
  | unknownKeymaterial
  | symmetric
  | asymmetricPrivate
  | asymmetricPublic
  | remote
deriving DecidableEq, Repr

/-- KeyStatusType from the proto schema. -/
inductive KeyStatusType where
  | unknownStatus
  | enabled
  | disabled
  | destroyed
deriving DecidableEq, Repr

/-- OutputPrefixType from the proto schema (the output-format preference of a
key entry). -/
inductive OutputPrefixType where
  | unknownPrefixKind
  | tink
  | legacy
  | raw
  | crunchy
deriving DecidableEq, Repr

/-- KeyData: a type identifier, opaque key-material bytes, and the material
classification. -/
structure KeyData where
  type_url : String
  value : Bytes
  key_material_type : KeyMaterialType
deriving DecidableEq, Repr

/-- Keyset::Key: one key entry. -/
structure Key where
  key_data : KeyData
  status : KeyStatusType
  key_id : Nat
  output_prefix_type : OutputPrefixType
deriving DecidableEq, Repr

/-- Keyset: ordered entries plus the primary key id. -/
structure Keyset where
  primary_key_id : Nat
  key : List Key
deriving DecidableEq, Repr

/-- EncryptedKeyset: the wire record wrapping the ciphertext. -/
structure EncryptedKeyset where
  encrypted_keyset : Bytes
deriving DecidableEq, Repr

/-- The AEAD capability: encrypt(plaintext, associated_data) and
decrypt(ciphertext, associated_data), each fallible.  External collaborator,
kept abstract. -/
structure Aead where
  encrypt : Bytes → Bytes → StatusOr Bytes
  decrypt : Bytes → Bytes → StatusOr Bytes

/-- The proto wire codec for Keyset: SerializeAsString and ParseFromString.
External collaborator (the byte-level wire encoding is an opaque, pre-defined
schema), kept abstract. -/
structure KeysetCodec where
  serializeAsString : Keyset → Bytes
  parseFromString : Bytes → Option Keyset

/-- KeysetHandle: owns exactly one Keyset by value. -/
structure KeysetHandle where
  keyset_ : Keyset
deriving DecidableEq, Repr

/-- The private accessor get_keyset(). -/
def KeysetHandle.get_keyset (h : KeysetHandle) : Keyset := h.keyset_

/-- Anonymous-namespace helper Encrypt: serialize the keyset, encrypt it with
empty associated data, wrap the ciphertext in an EncryptedKeyset record. -/
def Encrypt (codec : KeysetCodec) (keyset : Keyset) (master_key_aead : Aead) :
    StatusOr EncryptedKeyset :=
  match master_key_aead.encrypt (codec.serializeAsString keyset) [] with
  | Except.error st => Except.error st
  | Except.ok ct => Except.ok ⟨ct⟩

/-- Anonymous-namespace helper Decrypt: decrypt the ciphertext with empty
associated data, then parse the plaintext as a Keyset; a parse failure is an
INVALID_ARGUMENT status with a fixed message, a decryption failure is the
AEAD status passed through. -/
def Decrypt (codec : KeysetCodec) (enc_keyset : EncryptedKeyset)
    (master_key_aead : Aead) : StatusOr Keyset :=
  match master_key_aead.decrypt enc_keyset.encrypted_keyset [] with
  | Except.error st => Except.error st
  | Except.ok pt =>
    match codec.parseFromString pt with
    | none =>
      Except.error ⟨ErrorCode.invalidArgument,
        "Could not parse the decrypted data as a Keyset-proto."⟩
    | some ks => Except.ok ks

/-- Observable trace of a Read call: the (ciphertext, associated_data) pairs
submitted to the AEAD decrypt operation, in order. -/
structure ReadTrace where
  decryptCalls : List (Bytes × Bytes)
deriving DecidableEq, Repr

/-- KeysetHandle::Read.  The reader collaborator is modelled by the result of
its single ReadEncrypted() call.  Returns the result together with the trace
of AEAD decrypt calls made. -/
def KeysetHandle.Read (codec : KeysetCodec) (reader : StatusOr EncryptedKeyset)
    (master_key_aead : Aead) : StatusOr KeysetHandle × ReadTrace :=
  match reader with
  | Except.error st =>
    (Except.error ⟨ErrorCode.invalidArgument,
      "Error reading encrypted keyset data: " ++ st.message⟩, ⟨[]⟩)
  | Except.ok enc =>
    match Decrypt codec enc master_key_aead with
    | Except.error st =>
      (Except.error ⟨ErrorCode.invalidArgument,
        "Error decrypting encrypted keyset: " ++ st.message⟩,
       ⟨[(enc.encrypted_keyset, [])]⟩)
    | Except.ok ks => (Except.ok ⟨ks⟩, ⟨[(enc.encrypted_keyset, [])]⟩)

/-- Observable trace of a Write call: the (plaintext, associated_data) pairs
submitted to the AEAD encrypt operation, and the EncryptedKeyset records
passed to the writer, each in order. -/
structure WriteTrace where
  encryptCalls : List (Bytes × Bytes)
  writerCalls : List EncryptedKeyset
deriving DecidableEq, Repr

/-- KeysetHandle::Write.  The writer collaborator is an optional function
(None models a null KeysetWriter pointer).  Returns the status together with
the trace of AEAD encrypt calls and writer calls made. -/
def KeysetHandle.Write (codec : KeysetCodec)
    (writer : Option (EncryptedKeyset → Status)) (h : KeysetHandle)
    (master_key_aead : Aead) : Status × WriteTrace :=
  match writer with
  | none => (⟨ErrorCode.invalidArgument, "Writer must be non-null"⟩, ⟨[], []⟩)
  | some w =>
    match Encrypt codec h.get_keyset master_key_aead with
    | Except.error st =>
      (⟨ErrorCode.invalidArgument,
        "Encryption of the keyset failed: " ++ st.message⟩,
       ⟨[(codec.serializeAsString h.get_keyset, [])], []⟩)
    | Except.ok enc =>
      (w enc, ⟨[(codec.serializeAsString h.get_keyset, [])], [enc]⟩)

/-- The type registry capability Registry::GetPublicKeyData: from a type
identifier and private key-material bytes to the derived public KeyData.
External collaborator, kept abstract. -/
abbrev Registry := String → Bytes → StatusOr KeyData

/-- ExtractPublicKey: reject a non-ASYMMETRIC_PRIVATE entry with an
INVALID_ARGUMENT status; otherwise copy the entry and swap its whole key_data
for the KeyData returned by the registry. -/
def ExtractPublicKey (registry : Registry) (key : Key) : StatusOr Key :=
  if key.key_data.key_material_type ≠ KeyMaterialType.asymmetricPrivate then
    Except.error ⟨ErrorCode.invalidArgument,
      "Key material is not of type KeyData::ASYMMETRIC_PRIVATE"⟩
  else
    match registry key.key_data.type_url key.key_data.value with
    | Except.error st => Except.error st
    | Except.ok kd => Except.ok { key with key_data := kd }

/-- The loop body of KeysetHandle::GetPublicKeysetHandle: extract a public key
from every entry in order, failing at the first entry that fails. -/
def extractPublicKeys (registry : Registry) : List Key → StatusOr (List Key)
  | [] => Except.ok []
  | k :: rest =>
    match ExtractPublicKey registry k with
    | Except.error st => Except.error st
    | Except.ok pk =>
      match extractPublicKeys registry rest with
      | Except.error st => Except.error st
      | Except.ok pks => Except.ok (pk :: pks)

/-- KeysetHandle::GetPublicKeysetHandle.  The second component is the state of
the receiver handle when the call returns: the source reads the owned keyset
only through the const accessor get_keyset() and mutates only the local
public_keyset, so the receiver is returned unchanged on every path. -/
def KeysetHandle.GetPublicKeysetHandle (registry : Registry)
    (h : KeysetHandle) : StatusOr KeysetHandle × KeysetHandle :=
  match extractPublicKeys registry h.get_keyset.key with
  | Except.error st => (Except.error st, h)
  | Except.ok pks =>
    (Except.ok ⟨⟨h.get_keyset.primary_key_id, pks⟩⟩, h)

/-! Concrete fixtures used to exercise the operations on closed inputs. -/

/-- A concrete keyset with no entries. -/
def K0 : Keyset := ⟨42, []⟩

/-- A concrete codec that serializes K0 to the byte string [0] and parses [0]
back to K0. -/
def codec0 : KeysetCodec :=
  ⟨fun _ => [0], fun b => if b = [0] then some K0 else none⟩

/-- A concrete AEAD whose encrypt and decrypt are both the identity on the
plaintext. -/
def aead0 : Aead := ⟨fun p _ => Except.ok p, fun c _ => Except.ok c⟩

/-- A concrete AEAD whose decrypt always fails with a notFound status. -/
def aeadFail : Aead :=
  ⟨fun p _ => Except.ok p, fun _ _ => Except.error ⟨ErrorCode.notFound, "mac mismatch"⟩⟩

/-- A concrete writer that always succeeds. -/
def w0 : EncryptedKeyset → Status := fun _ => ⟨ErrorCode.ok, ""⟩

/-- Concrete private key data. -/
def kdPriv : KeyData := ⟨"type.googleapis.com/priv", [1, 2], KeyMaterialType.asymmetricPrivate⟩

/-- A concrete asymmetric-private key entry with key id 7. -/
def kPriv : Key := ⟨kdPriv, KeyStatusType.enabled, 7, OutputPrefixType.tink⟩

/-- Concrete public key data, classified asymmetric-public. -/
def kdPub : KeyData := ⟨"type.googleapis.com/pub", [3], KeyMaterialType.asymmetricPublic⟩

/-- A concrete registry that derives kdPub from any input. -/
def regPub : Registry := fun _ _ => Except.ok kdPub

/-- Concrete key data classified symmetric. -/
def kdSym : KeyData := ⟨"type.googleapis.com/sym", [9], KeyMaterialType.symmetric⟩

/-- A concrete symmetric key entry with key id 8. -/
def kSym : Key := ⟨kdSym, KeyStatusType.enabled, 8, OutputPrefixType.raw⟩

/-- A concrete registry whose returned KeyData is classified symmetric, not
asymmetric-public. -/
def regSym : Registry := fun _ _ => Except.ok kdSym

/-- The key entry ExtractPublicKey produces from kPriv under regSym. -/
def kOutSym : Key := ⟨kdSym, KeyStatusType.enabled, 7, OutputPrefixType.tink⟩

/-! Theorems. -/

/-- C1: for every Handle h and every AEAD whose decrypt inverts its encrypt at
empty associated data, if Write under that AEAD handed the writer the record
enc (so encryption succeeded and enc holds the produced bytes), then Read of
enc under the same AEAD succeeds and yields a Handle whose keyset equals
(hence is byte-equal to) the keyset of h.  The proto codec round-trip on the
keyset is the externally guaranteed schema property. -/
theorem read_write_roundtrip (codec : KeysetCodec) (aead : Aead)
    (w : EncryptedKeyset → Status) (h : KeysetHandle) (enc : EncryptedKeyset)
    (hcodec : codec.parseFromString (codec.serializeAsString h.get_keyset) =
      some h.get_keyset)
    (haead : ∀ p c, aead.encrypt p [] = Except.ok c →
      aead.decrypt c [] = Except.ok p)
    (hwrote : (KeysetHandle.Write codec (some w) h aead).2.writerCalls = [enc]) :
    ∃ h2 : KeysetHandle,
      (KeysetHandle.Read codec (Except.ok enc) aead).1 = Except.ok h2 ∧
      h2.get_keyset = h.get_keyset := by
  rcases hA : aead.encrypt (codec.serializeAsString h.get_keyset) []
    with st | ct
  · simp only [KeysetHandle.Write, Encrypt, hA] at hwrote
    exact absurd hwrote (by simp)
  · have hEnc : Encrypt codec h.get_keyset aead = Except.ok ⟨ct⟩ := by
      simp [Encrypt, hA]
    simp only [KeysetHandle.Write, hEnc] at hwrote
    have henc : enc = ⟨ct⟩ := by
      simpa using hwrote.symm
    subst henc
    refine ⟨⟨h.get_keyset⟩, ?_, rfl⟩
    simp [KeysetHandle.Read, Decrypt, haead _ _ hA, hcodec]

/-- Witness for C1: the round trip evaluated at the concrete keyset K0,
codec codec0 and identity AEAD aead0. -/
theorem read_write_roundtrip_witness :
    ∃ h2 : KeysetHandle,
      (KeysetHandle.Read codec0 (Except.ok ⟨[0]⟩) aead0).1 = Except.ok h2 ∧
      h2.get_keyset = (KeysetHandle.mk K0).get_keyset :=
  read_write_roundtrip codec0 aead0 w0 ⟨K0⟩ ⟨[0]⟩ rfl
    (fun p c hpc => by exact hpc.symm) rfl

/-- Helper: when every entry of a list is asymmetric-private and every
registry lookup on it succeeds, the extraction loop succeeds and relates the
input and output lists entrywise: each output entry keeps the input entry's
key id, status and output-prefix type, and its key_data is exactly the
KeyData the registry returned for the input entry. -/
theorem extractPublicKeys_ok (registry : Registry) (ks : List Key)
    (hpriv : ∀ k ∈ ks,
      k.key_data.key_material_type = KeyMaterialType.asymmetricPrivate)
    (hreg : ∀ k ∈ ks,
      ∃ kd, registry k.key_data.type_url k.key_data.value = Except.ok kd) :
    ∃ ps, extractPublicKeys registry ks = Except.ok ps ∧
      List.Forall₂ (fun k p =>
        p.key_id = k.key_id ∧ p.status = k.status ∧
        p.output_prefix_type = k.output_prefix_type ∧
        registry k.key_data.type_url k.key_data.value = Except.ok p.key_data)
        ks ps := by
  induction ks with
  | nil => exact ⟨[], rfl, List.Forall₂.nil⟩
  | cons a rest ih =>
    obtain ⟨kd, hkd⟩ := hreg a (by simp)
    have ha : ExtractPublicKey registry a =
        Except.ok { a with key_data := kd } := by
      simp [ExtractPublicKey, hpriv a (by simp), hkd]
    obtain ⟨ps, hps, hrel⟩ := ih
      (fun k hk => hpriv k (List.mem_cons_of_mem _ hk))
      (fun k hk => hreg k (List.mem_cons_of_mem _ hk))
    refine ⟨{ a with key_data := kd } :: ps, ?_, ?_⟩
    · simp [extractPublicKeys, ha, hps]
    · exact List.Forall₂.cons ⟨rfl, rfl, rfl, hkd⟩ hrel

/-- C2: on a keyset whose entries are all asymmetric-private and on which
every registry lookup succeeds, GetPublicKeysetHandle succeeds; the result
preserves primary_key_id, has the same number of entries in the same order,
and each derived entry keeps the original key id, status and output-prefix
type while its key_data (material bytes and type identifier) is exactly what
the registry returned for the original entry. -/
theorem getPublicKeysetHandle_correct (registry : Registry) (h : KeysetHandle)
    (hpriv : ∀ k ∈ h.get_keyset.key,
      k.key_data.key_material_type = KeyMaterialType.asymmetricPrivate)
    (hreg : ∀ k ∈ h.get_keyset.key,
      ∃ kd, registry k.key_data.type_url k.key_data.value = Except.ok kd) :
    ∃ h2 : KeysetHandle,
      (KeysetHandle.GetPublicKeysetHandle registry h).1 = Except.ok h2 ∧
      h2.get_keyset.primary_key_id = h.get_keyset.primary_key_id ∧
      h2.get_keyset.key.length = h.get_keyset.key.length ∧
      List.Forall₂ (fun k p =>
        p.key_id = k.key_id ∧ p.status = k.status ∧
        p.output_prefix_type = k.output_prefix_type ∧
        registry k.key_data.type_url k.key_data.value = Except.ok p.key_data)
        h.get_keyset.key h2.get_keyset.key := by
  obtain ⟨ps, hps, hrel⟩ := extractPublicKeys_ok registry h.get_keyset.key
    hpriv hreg
  refine ⟨⟨⟨h.get_keyset.primary_key_id, ps⟩⟩, ?_, rfl, ?_, ?_⟩
  · simp [KeysetHandle.GetPublicKeysetHandle, hps]
  · exact (List.Forall₂.length_eq hrel).symm
  · exact hrel

/-- Witness for C2: derivation on the one-entry private keyset with key id 7
under the concrete registry regPub. -/
theorem getPublicKeysetHandle_correct_witness :
    ∃ h2 : KeysetHandle,
      (KeysetHandle.GetPublicKeysetHandle regPub ⟨⟨7, [kPriv]⟩⟩).1 =
        Except.ok h2 ∧
      h2.get_keyset.primary_key_id =
        (KeysetHandle.mk ⟨7, [kPriv]⟩).get_keyset.primary_key_id ∧
      h2.get_keyset.key.length =
        (KeysetHandle.mk ⟨7, [kPriv]⟩).get_keyset.key.length ∧
      List.Forall₂ (fun k p =>
        p.key_id = k.key_id ∧ p.status = k.status ∧
        p.output_prefix_type = k.output_prefix_type ∧
        regPub k.key_data.type_url k.key_data.value = Except.ok p.key_data)
        (KeysetHandle.mk ⟨7, [kPriv]⟩).get_keyset.key h2.get_keyset.key :=
  getPublicKeysetHandle_correct regPub ⟨⟨7, [kPriv]⟩⟩
    (fun k hk => by
      have : k = kPriv := by simpa [KeysetHandle.get_keyset] using hk
      subst this
      rfl)
    (fun k _ => ⟨kdPub, rfl⟩)

/-- Counterexample for C3: with the concrete asymmetric-private entry kPriv
and a registry whose returned KeyData is classified symmetric,
ExtractPublicKey succeeds and the derived entry's classification is the
registry's (symmetric), not asymmetric-public — the core swaps in the
registry's whole KeyData and never replaces the classification itself. -/
theorem extractPublicKey_classification_cex :
    ExtractPublicKey regSym kPriv = Except.ok kOutSym ∧
    kOutSym.key_data.key_material_type ≠ KeyMaterialType.asymmetricPublic :=
  ⟨rfl, by decide⟩

/-- C3 (amended): for every asymmetric-private entry whose registry lookup
succeeds with KeyData kd, ExtractPublicKey succeeds and the derived entry is
the original with its whole key_data replaced by kd; in particular the
derived classification is kd's classification, carried over from the
registry, and it is asymmetric-public exactly when the registry classified kd
so. -/
theorem extractPublicKey_swaps_registry_key_data (registry : Registry)
    (k : Key) (kd : KeyData)
    (hpriv : k.key_data.key_material_type = KeyMaterialType.asymmetricPrivate)
    (hreg : registry k.key_data.type_url k.key_data.value = Except.ok kd) :
    ExtractPublicKey registry k = Except.ok { k with key_data := kd } ∧
    ({ k with key_data := kd } : Key).key_data.key_material_type =
      kd.key_material_type := by
  constructor
  · simp [ExtractPublicKey, hpriv, hreg]
  · rfl

/-- Witness for the amended C3: evaluated at kPriv under regPub. -/
theorem extractPublicKey_swaps_registry_key_data_witness :
    ExtractPublicKey regPub kPriv =
      Except.ok { kPriv with key_data := kdPub } ∧
    ({ kPriv with key_data := kdPub } : Key).key_data.key_material_type =
      kdPub.key_material_type :=
  extractPublicKey_swaps_registry_key_data regPub kPriv kdPub rfl rfl

/-- Helper: if every entry in the prefix before position i is
asymmetric-private with a successful registry lookup and the entry at
position i is not asymmetric-private, the extraction loop fails with the
INVALID_ARGUMENT status carrying the fixed non-private message. -/
theorem extractPublicKeys_fail_at (registry : Registry) :
    ∀ (ks : List Key) (i : Nat) (hi : i < ks.length),
    (∀ k ∈ ks.take i,
      k.key_data.key_material_type = KeyMaterialType.asymmetricPrivate ∧
      ∃ kd, registry k.key_data.type_url k.key_data.value = Except.ok kd) →
    (ks.get ⟨i, hi⟩).key_data.key_material_type ≠
      KeyMaterialType.asymmetricPrivate →
    extractPublicKeys registry ks = Except.error
      ⟨ErrorCode.invalidArgument,
        "Key material is not of type KeyData::ASYMMETRIC_PRIVATE"⟩ := by
  intro ks
  induction ks with
  | nil => intro i hi; exact absurd hi (by simp)
  | cons a rest ih =>
    intro i hi hbefore hbad
    cases i with
    | zero =>
      simp only [List.get] at hbad
      simp [extractPublicKeys, ExtractPublicKey, hbad]
    | succ n =>
      obtain ⟨hapriv, kd, hkd⟩ := hbefore a (by simp)
      have ha : ExtractPublicKey registry a =
          Except.ok { a with key_data := kd } := by
        simp [ExtractPublicKey, hapriv, hkd]
      have hrest := ih n (by simpa using hi)
        (fun k hk => hbefore k (by simpa using List.mem_cons_of_mem a hk))
        (by simpa using hbad)
      simp [extractPublicKeys, ha, hrest]

/-- C4: if the entries before position i are all asymmetric-private and
derivable (their registry lookups succeed) and the entry at position i is not
asymmetric-private, GetPublicKeysetHandle fails for the whole operation with
the INVALID_ARGUMENT non-private status — the error result carries no Handle
and no partial public keyset. -/
theorem getPublicKeysetHandle_fail_fast (registry : Registry)
    (h : KeysetHandle) (i : Nat) (hi : i < h.get_keyset.key.length)
    (hbefore : ∀ k ∈ h.get_keyset.key.take i,
      k.key_data.key_material_type = KeyMaterialType.asymmetricPrivate ∧
      ∃ kd, registry k.key_data.type_url k.key_data.value = Except.ok kd)
    (hbad : (h.get_keyset.key.get ⟨i, hi⟩).key_data.key_material_type ≠
      KeyMaterialType.asymmetricPrivate) :
    (KeysetHandle.GetPublicKeysetHandle registry h).1 = Except.error
      ⟨ErrorCode.invalidArgument,
        "Key material is not of type KeyData::ASYMMETRIC_PRIVATE"⟩ := by
  have := extractPublicKeys_fail_at registry h.get_keyset.key i hi hbefore hbad
  simp [KeysetHandle.GetPublicKeysetHandle, this]

/-- Witness for C4: a two-entry keyset holding one derivable private entry
followed by one symmetric entry fails derivation entirely. -/
theorem getPublicKeysetHandle_fail_fast_witness :
    (KeysetHandle.GetPublicKeysetHandle regPub ⟨⟨7, [kPriv, kSym]⟩⟩).1 =
      Except.error ⟨ErrorCode.invalidArgument,
        "Key material is not of type KeyData::ASYMMETRIC_PRIVATE"⟩ :=
  getPublicKeysetHandle_fail_fast regPub ⟨⟨7, [kPriv, kSym]⟩⟩ 1 (by decide)
    (fun k hk => by
      have : k = kPriv := by
        simpa [KeysetHandle.get_keyset] using hk
      subst this
      exact ⟨rfl, kdPub, rfl⟩)
    (by decide)

/-- C5: on all inputs, every AEAD call this core makes uses the empty byte
sequence as associated data — every encrypt call traced by Write and every
decrypt call traced by Read carries [] as its associated-data component. -/
theorem aead_calls_use_empty_associated_data (codec : KeysetCodec)
    (writer : Option (EncryptedKeyset → Status)) (h : KeysetHandle)
    (reader : StatusOr EncryptedKeyset) (aead : Aead) :
    (∀ call ∈ (KeysetHandle.Write codec writer h aead).2.encryptCalls,
      call.2 = ([] : Bytes)) ∧
    (∀ call ∈ (KeysetHandle.Read codec reader aead).2.decryptCalls,
      call.2 = ([] : Bytes)) := by
  constructor
  · intro call hcall
    cases writer with
    | none => simp [KeysetHandle.Write] at hcall
    | some w =>
      rcases hE : Encrypt codec h.get_keyset aead with st | enc <;>
        simp [KeysetHandle.Write, hE] at hcall <;>
        simp [hcall]
  · intro call hcall
    cases reader with
    | error st => simp [KeysetHandle.Read] at hcall
    | ok enc =>
      rcases hD : Decrypt codec enc aead with st | ks <;>
        simp [KeysetHandle.Read, hD] at hcall <;>
        simp [hcall]

/-- Witness for C5: the traced calls of concrete Write and Read runs each
carry empty associated data. -/
theorem aead_calls_use_empty_associated_data_witness :
    ((([0], []) : Bytes × Bytes).2 = ([] : Bytes)) ∧
    ((([0], []) : Bytes × Bytes).2 = ([] : Bytes)) :=
  ⟨(aead_calls_use_empty_associated_data codec0 (some w0) ⟨K0⟩
      (Except.ok ⟨[0]⟩) aead0).1 ([0], []) (by decide),
   (aead_calls_use_empty_associated_data codec0 (some w0) ⟨K0⟩
      (Except.ok ⟨[0]⟩) aead0).2 ([0], []) (by decide)⟩

/-- C6: for every codec, Handle and AEAD, Write with a null writer returns
the INVALID_ARGUMENT non-null status with an empty call trace: no AEAD
encrypt call and no writer call is made (in particular the result does not
depend on the AEAD at all). -/
theorem write_null_writer (codec : KeysetCodec) (h : KeysetHandle)
    (aead : Aead) :
    KeysetHandle.Write codec none h aead =
      (⟨ErrorCode.invalidArgument, "Writer must be non-null"⟩,
       ⟨([] : List (Bytes × Bytes)), ([] : List EncryptedKeyset)⟩) := rfl

/-- C7: with a non-null writer, when encryption succeeds producing enc the
writer is invoked exactly once, on enc, and Write returns the writer's own
result unchanged; when encryption fails the writer is invoked zero times. -/
theorem write_invokes_writer_exactly_once (codec : KeysetCodec)
    (w : EncryptedKeyset → Status) (h : KeysetHandle) (aead : Aead) :
    (∀ enc, Encrypt codec h.get_keyset aead = Except.ok enc →
      (KeysetHandle.Write codec (some w) h aead).1 = w enc ∧
      (KeysetHandle.Write codec (some w) h aead).2.writerCalls = [enc]) ∧
    (∀ st, Encrypt codec h.get_keyset aead = Except.error st →
      (KeysetHandle.Write codec (some w) h aead).2.writerCalls = []) := by
  constructor
  · intro enc hE
    simp [KeysetHandle.Write, hE]
  · intro st hE
    simp [KeysetHandle.Write, hE]

/-- Witness for C7: a concrete successful Write run returns the writer's own
status and its trace holds exactly one writer call, on the encrypted record. -/
theorem write_invokes_writer_exactly_once_witness :
    (KeysetHandle.Write codec0 (some w0) ⟨K0⟩ aead0).1 = w0 ⟨[0]⟩ ∧
    (KeysetHandle.Write codec0 (some w0) ⟨K0⟩ aead0).2.writerCalls =
      [⟨[0]⟩] :=
  (write_invokes_writer_exactly_once codec0 w0 ⟨K0⟩ aead0).1 ⟨[0]⟩ rfl

/-- Helper: appending on the left is cancellable for strings. -/
theorem string_append_left_cancel (a b c : String) (hbc : a ++ b = a ++ c) :
    b = c := by
  have hd := congrArg String.data hbc
  simp [String.data_append] at hd
  exact String.ext hd

/-- C8: when decryption succeeds but the plaintext does not parse as a
Keyset, Read fails with the INVALID_ARGUMENT status wrapping the fixed
parse-failure message; and no Read run whose AEAD decrypt fails (with a
message other than that fixed parse-failure text, which a real AEAD never
emits) produces that same error — so a caller can tell a parse failure apart
from a decryption failure. -/
theorem read_parse_failure_distinct_error (codec : KeysetCodec) (aead : Aead)
    (ct pt : Bytes) (hdec : aead.decrypt ct [] = Except.ok pt)
    (hparse : codec.parseFromString pt = none) :
    (KeysetHandle.Read codec (Except.ok ⟨ct⟩) aead).1 = Except.error
      ⟨ErrorCode.invalidArgument,
        "Error decrypting encrypted keyset: " ++
          "Could not parse the decrypted data as a Keyset-proto."⟩ ∧
    ∀ (codec2 : KeysetCodec) (aead2 : Aead) (ct2 : Bytes) (st : Status),
      aead2.decrypt ct2 [] = Except.error st →
      st.message ≠ "Could not parse the decrypted data as a Keyset-proto." →
      (KeysetHandle.Read codec2 (Except.ok ⟨ct2⟩) aead2).1 ≠ Except.error
        ⟨ErrorCode.invalidArgument,
          "Error decrypting encrypted keyset: " ++
            "Could not parse the decrypted data as a Keyset-proto."⟩ := by
  constructor
  · simp [KeysetHandle.Read, Decrypt, hdec, hparse]
  · intro codec2 aead2 ct2 st hdec2 hmsg heq
    have hrun : (KeysetHandle.Read codec2 (Except.ok ⟨ct2⟩) aead2).1 =
        Except.error ⟨ErrorCode.invalidArgument,
          "Error decrypting encrypted keyset: " ++ st.message⟩ := by
      simp [KeysetHandle.Read, Decrypt, hdec2]
    rw [hrun] at heq
    have hst := Except.error.inj heq
    exact hmsg (string_append_left_cancel _ _ _ (congrArg Status.message hst))

/-- Witness for C8: under the identity AEAD aead0 the ciphertext [1]
decrypts to [1], which codec0 does not parse, and the concrete Read run
fails with the wrapped parse-failure status. -/
theorem read_parse_failure_distinct_error_witness :
    (KeysetHandle.Read codec0 (Except.ok ⟨[1]⟩) aead0).1 = Except.error
      ⟨ErrorCode.invalidArgument,
        "Error decrypting encrypted keyset: " ++
          "Could not parse the decrypted data as a Keyset-proto."⟩ :=
  (read_parse_failure_distinct_error codec0 aead0 [1] [1] rfl rfl).1

/-- C9: GetPublicKeysetHandle on a Handle owning an empty keyset succeeds and
returns a Handle owning an empty keyset with the same primary_key_id, not an
error. -/
theorem getPublicKeysetHandle_empty (registry : Registry) (h : KeysetHandle)
    (hempty : h.get_keyset.key = []) :
    (KeysetHandle.GetPublicKeysetHandle registry h).1 =
      Except.ok ⟨⟨h.get_keyset.primary_key_id, []⟩⟩ := by
  simp [KeysetHandle.GetPublicKeysetHandle, hempty, extractPublicKeys]

/-- Witness for C9: the concrete empty keyset with primary_key_id 42. -/
theorem getPublicKeysetHandle_empty_witness :
    (KeysetHandle.GetPublicKeysetHandle regPub ⟨K0⟩).1 =
      Except.ok ⟨⟨(KeysetHandle.mk K0).get_keyset.primary_key_id, []⟩⟩ :=
  getPublicKeysetHandle_empty regPub ⟨K0⟩ rfl

/-- C10: GetPublicKeysetHandle is non-destructive: on every path (success or
failure) the receiver handle's state after the call equals its state before
it — in particular its entries and its primary_key_id are unchanged. -/
theorem getPublicKeysetHandle_nondestructive (registry : Registry)
    (h : KeysetHandle) :
    (KeysetHandle.GetPublicKeysetHandle registry h).2 = h ∧
    (KeysetHandle.GetPublicKeysetHandle registry h).2.get_keyset.key =
      h.get_keyset.key ∧
    (KeysetHandle.GetPublicKeysetHandle
      registry h).2.get_keyset.primary_key_id =
      h.get_keyset.primary_key_id := by
  have hpost : (KeysetHandle.GetPublicKeysetHandle registry h).2 = h := by
    unfold KeysetHandle.GetPublicKeysetHandle
    rcases extractPublicKeys registry h.get_keyset.key with st | pks <;> rfl
  exact ⟨hpost, by rw [hpost], by rw [hpost]⟩

end Tink
